import Mathlib

/-!
# Verification of the reverse-proxy-agent Supervisor Core

Shallow embedding of the supervision core of `reverse-proxy-agent` (rpa):
the supervisor loop (`internal/supervisor/supervisor.go`, current revision
after the code-review fixes), the debounce gate, the success-grace mark, the
polling network watcher (`pkg/monitor`), and the Android client backoff
(`apps/rpa-android`).  Machine integers are modelled as `Int`/`Nat`;
`time.Time` instants as `Int` milliseconds with `Option` for Go's zero time;
Kotlin `Double` arithmetic as exact rationals (exact at the parameter values
used here); Go channels/goroutine interleavings as explicit environment
inputs and event traces.
-/

namespace Rpa

/-- Modelled from the spec: `pkg/state` is absent from `src/` (only its
callers are present).  Spec section 4.1 gives the three states
`Stopped`, `Connecting`, `Connected`. -/
inductive SMState where
  | stopped
  | connecting
  | connected
deriving DecidableEq, Repr

/-- Modelled from the spec: `pkg/state` `StateMachine.Transition` is absent
from `src/`.  Spec section 4.1: legal transitions are
Stopped→Connecting, Connecting→Connected, Connecting→Stopped,
Connected→Stopped; anything else fails with an invalid-transition error
(`none` here). -/
def smTransition : SMState → SMState → Option SMState
  | .stopped, .connecting => some .connecting
  | .connecting, .connected => some .connected
  | .connecting, .stopped => some .stopped
  | .connected, .stopped => some .stopped
  | _, _ => none

/-- Modelled from the spec: `pkg/restart` `Policy` is absent from `src/`.
Spec section 3: `policy` is the enum {Always, OnFailure}; the names
"always" / "on-failure" appear in `internal/cli/cli.go` (restart-policy
flag). -/
inductive Policy where
  | always
  | onFailure
deriving DecidableEq, Repr

/-- Policy names as used in `restart_policy_stop` log fields. -/
def Policy.name : Policy → String
  | .always => "always"
  | .onFailure => "on-failure"

/-- One structured log event: `logger.Event(level, event, fields)`
(`pkg/logging`). -/
structure LogEvent where
  level : String
  event : String
  fields : List (String × String)
deriving DecidableEq, Repr

/-- `Runner.shouldRestart` (internal/supervisor/supervisor.go):
auth/hostkey classes never restart; policy OnFailure restarts only on a
failed exit (`err != nil || exitCode != 0`, with `errored` modelling
`err != nil`); any other policy restarts. -/
def shouldRestart (policy : Policy) (exitCode : Int) (errored : Bool)
    (cls : String) : Bool :=
  if cls = "auth" ∨ cls = "hostkey" then
    false
  else
    match policy with
    | .onFailure => errored || exitCode ≠ 0
    | .always => true

/-- Outcome of the restart decision at the bottom of the
`RunWithLogger` loop body: either the loop returns (emitting one
`restart_policy_stop` event) or it restarts (resetting the backoff iff the
exit was clean). -/
inductive Decision where
  | stopRun (ev : LogEvent)
  | restart (resetBackoff : Bool)
deriving DecidableEq, Repr

/-- The restart decision of `Runner.RunWithLogger`
(internal/supervisor/supervisor.go, after the `ssh_exited` handling):
`if !r.shouldRestart(...) { INFO restart_policy_stop; return nil }`, then
`if class == "auth" || class == "hostkey" { ERROR restart_policy_stop;
return nil }`, else reset backoff on clean exit and restart. -/
def exitDecision (policy : Policy) (exitCode : Int) (errored : Bool)
    (cls : String) : Decision :=
  if ¬ shouldRestart policy exitCode errored cls then
    .stopRun ⟨"INFO", "restart_policy_stop",
      [("policy", policy.name), ("class", cls)]⟩
  else if cls = "auth" ∨ cls = "hostkey" then
    .stopRun ⟨"ERROR", "restart_policy_stop",
      [("policy", policy.name), ("class", cls),
       ("reason", "manual intervention required")]⟩
  else
    .restart (errored = false)

/-- The ERROR-level `restart_policy_stop` event the second branch of the
decision would emit. -/
def errorPolicyStop (policy : Policy) (cls : String) : LogEvent :=
  ⟨"ERROR", "restart_policy_stop",
    [("policy", policy.name), ("class", cls),
     ("reason", "manual intervention required")]⟩

/-! ## Debounce gate -/

/-- `Runner.allowTrigger` (internal/supervisor/supervisor.go):
`window <= 0` disables debouncing; otherwise if the last accepted trigger
is set (`!lastTrigger.IsZero()`, modelled by `some`) and `now - last <
window` the trigger is rejected, else the instant is recorded and the
trigger accepted.  Returns (accepted, new lastTrigger). -/
def allowTrigger (lastTrigger : Option Int) (now window : Int) :
    Bool × Option Int :=
  if window ≤ 0 then
    (true, lastTrigger)
  else
    match lastTrigger with
    | none => (true, some now)
    | some prev =>
        if now - prev < window then (false, lastTrigger)
        else (true, some now)

/-! ## Android client backoff (apps/rpa-android SshTunnelManager.kt) -/

/-- Kotlin `Double.toLong()`: truncation toward zero, modelled on exact
rationals (computed from the reduced numerator and denominator). -/
def ratToLong (q : ℚ) : Int :=
  if 0 ≤ q.num then Int.ofNat (q.num.toNat / q.den)
  else -Int.ofNat ((-q.num).toNat / q.den)

/-- The Android client `Backoff` class (apps/rpa-android,
SshTunnelManager.kt): fields minDelayMs, maxDelayMs, factor, jitter and
the mutable currentDelay.  Kotlin `Double` values are modelled as exact
rationals (exact for the integral parameters used in the spec's
scenarios). -/
structure KBackoff where
  minDelayMs : Int
  maxDelayMs : Int
  factor : ℚ
  jitter : ℚ
  currentDelay : Int
deriving DecidableEq, Repr

/-- Construct a `Backoff` as the Kotlin constructor does:
`currentDelay = minDelayMs`. -/
def KBackoff.make (minD maxD : Int) (factor jitter : ℚ) : KBackoff :=
  ⟨minD, maxD, factor, jitter, minD⟩

/-- `Backoff.applyJitter`: for `jitter <= 0` the value is returned
unchanged; otherwise Kotlin draws `rand` uniformly from
`[value*(1-jitter), value*(1+jitter))` and returns
`rand.toLong().coerceAtLeast(0)`.  The random draw is passed in as
`sample` to keep the function pure. -/
def KBackoff.applyJitter (b : KBackoff) (value : Int) (sample : ℚ) : Int :=
  if b.jitter ≤ 0 then value
  else max (ratToLong sample) 0

/-- `Backoff.nextDelayMs`: returns the (jittered) current delay and then
sets `currentDelay = min(maxDelayMs, (currentDelay * factor).toLong())`. -/
def KBackoff.nextDelayMs (b : KBackoff) (sample : ℚ) : Int × KBackoff :=
  (b.applyJitter b.currentDelay sample,
   { b with currentDelay := min b.maxDelayMs (ratToLong ((b.currentDelay : ℚ) * b.factor)) })

/-- `Backoff.reset`: `currentDelay = minDelayMs`. -/
def KBackoff.reset (b : KBackoff) : KBackoff :=
  { b with currentDelay := b.minDelayMs }

/-- Successive `nextDelayMs` outputs (with jitter sample 0), returning the
list of returned delays and the final backoff state. -/
def KBackoff.nextSeq (b : KBackoff) : Nat → List Int × KBackoff
  | 0 => ([], b)
  | n + 1 =>
      let (d, b1) := b.nextDelayMs 0
      let (ds, b2) := b1.nextSeq n
      (d :: ds, b2)

/-! ## Trigger handling -/

/-- Side effects the supervisor performs on the child process and the
logger, recorded as an explicit trace. -/
inductive Ev where
  | log (ev : LogEvent)
  | interrupt (epoch : Nat)
  | sigterm (epoch : Nat)
  | kill (epoch : Nat)
  | waitOn (epoch : Nat) (timeoutMs : Int) (completed : Bool)
deriving DecidableEq, Repr

/-- The runner fields read and written by the trigger paths
(`triggerRestart`, `periodicRestartLoop`): the state machine's state, the
owned child (`cmd`, identified by its spawn epoch), the last accepted
trigger instant and the last trigger reason. -/
structure TrigSt where
  smState : SMState
  cmd : Option Nat
  lastTrigger : Option Int
  lastTriggerReason : String
deriving DecidableEq, Repr

/-- `Runner.terminateProcess`: SIGTERM to the child if one exists. -/
def terminateEvents (cmd : Option Nat) : List Ev :=
  match cmd with
  | some e => [.sigterm e]
  | none => []

/-- `Runner.triggerRestart` (internal/supervisor/supervisor.go), the path
used by `RequestRestart` and the sleep/network monitors: ignore unless
Connected; record the trigger reason (before the debounce check, hence
also for dropped triggers); consult `allowTrigger`; on rejection emit
`restart_skipped` (when a logger is set), on acceptance emit
`restart_triggered` and SIGTERM the child. -/
def triggerRestart (st : TrigSt) (reason : String) (debounceMs now : Int)
    (hasLogger : Bool) : TrigSt × List Ev :=
  if st.smState ≠ SMState.connected then (st, [])
  else
    let st1 := { st with lastTriggerReason := reason }
    let (ok, last1) := allowTrigger st1.lastTrigger now debounceMs
    let st2 := { st1 with lastTrigger := last1 }
    if ok then
      (st2, (if hasLogger then
              [Ev.log ⟨"INFO", "restart_triggered", [("reason", reason)]⟩]
             else []) ++ terminateEvents st2.cmd)
    else
      (st2, if hasLogger then
              [Ev.log ⟨"INFO", "restart_skipped",
                [("reason", reason), ("detail", "debounced")]⟩]
            else [])

/-- One `ticker.C` iteration of `Runner.periodicRestartLoop`
(internal/supervisor/supervisor.go): ignore unless Connected; consult
`allowTrigger` FIRST; on rejection emit `restart_skipped` and continue
(note: the trigger reason is NOT recorded on this path); on acceptance
record "periodic" as the reason, emit `restart_triggered` and SIGTERM the
child. -/
def periodicTick (st : TrigSt) (debounceMs now : Int) : TrigSt × List Ev :=
  if st.smState ≠ SMState.connected then (st, [])
  else
    let (ok, last1) := allowTrigger st.lastTrigger now debounceMs
    if ok then
      ({ st with lastTrigger := last1, lastTriggerReason := "periodic" },
       Ev.log ⟨"INFO", "restart_triggered", [("reason", "periodic")]⟩ ::
         terminateEvents st.cmd)
    else
      ({ st with lastTrigger := last1 },
       [Ev.log ⟨"INFO", "restart_skipped",
         [("reason", "periodic"), ("detail", "debounced")]⟩])

/-- Fold a sequence of external triggers (same reason, given arrival
instants) through `triggerRestart`, collecting each call's event trace. -/
def runTriggers (st : TrigSt) (window : Int) (reason : String)
    (hasLogger : Bool) : List Int → TrigSt × List (List Ev)
  | [] => (st, [])
  | t :: ts =>
      let (st1, evs) := triggerRestart st reason window t hasLogger
      let (st2, rest) := runTriggers st1 window reason hasLogger ts
      (st2, evs :: rest)

/-- Whether a trigger's event trace shows it was accepted
(a `restart_triggered` event was emitted). -/
def acceptedTrigger (evs : List Ev) : Bool :=
  evs.any fun e =>
    match e with
    | .log le => le.event = "restart_triggered"
    | _ => false

/-! ## Network watcher (pkg/monitor, polling fallback) -/

/-- One network interface as the watcher sees it: name, up and loopback
flags, and the address list — `none` models `iface.Addrs()` returning an
error (the interface is skipped). -/
structure Iface where
  name : String
  up : Bool
  loopback : Bool
  addrs : Option (List String)
deriving DecidableEq, Repr

/-- Insert into a lexicographically sorted list of strings. -/
def insertStr (s : String) : List String → List String
  | [] => [s]
  | t :: rest => if s ≤ t then s :: t :: rest else t :: insertStr s rest

/-- Lexicographic insertion sort — `sort.Strings` of the Go source. -/
def sortStrings : List String → List String
  | [] => []
  | s :: rest => insertStr s (sortStrings rest)

/-- The `"<name>|<addr>"` entries one interface contributes to the
fingerprint in `networkFingerprint` (pkg/monitor): skipped when down,
loopback, or when its address lookup errors. -/
def ifaceEntries (i : Iface) : List String :=
  if ¬ i.up then []
  else if i.loopback then []
  else
    match i.addrs with
    | none => []
    | some addrs => addrs.map (fun a => i.name ++ "|" ++ a)

/-- `networkFingerprint` (pkg/monitor): collect the entries of every
interface, sort them, and join with commas. -/
def networkFingerprint (ifaces : List Iface) : String :=
  String.intercalate "," (sortStrings (ifaces.map ifaceEntries).flatten)

/-- One `ticker.C` iteration of `networkWatcher` (pkg/monitor): a
fingerprint error (scan = `none`) is logged and skipped; a changed
fingerprint emits one `"network change"` trigger and becomes the new
reference; an unchanged one emits nothing. Returns (new reference
fingerprint, emitted trigger reasons). -/
def pollStep (prev : String) (scan : Option (List Iface)) :
    String × List String :=
  match scan with
  | none => (prev, [])
  | some ifaces =>
      let next := networkFingerprint ifaces
      if next ≠ prev then (next, ["network change"]) else (prev, [])

/-! ## Supervisor loop over a script of iteration outcomes -/

/-- One iteration outcome of the `RunWithLogger` loop:
`.startFailed` models `r.Start(build)` returning an error (no child
process was spawned; the loop counts a restart, sleeps with backoff and
continues); `.exit c e cls` models a successfully spawned child whose wait
completed with exit code `c`, error indicator `e` and classification
`cls`. -/
inductive Iter where
  | startFailed
  | exit (exitCode : Int) (errored : Bool) (cls : String)
deriving DecidableEq, Repr

/-- Whether the loop continues past an iteration with this outcome
(start failures retry; exits continue iff the restart decision says
restart). -/
def iterContinues (policy : Policy) : Iter → Bool
  | .startFailed => true
  | .exit c e cls =>
      match exitDecision policy c e cls with
      | .restart _ => true
      | .stopRun _ => false

/-- The `RunWithLogger` loop run over a script of iteration outcomes
(stop requests held out of scope): returns (number of children spawned,
whether the loop returned before the script was exhausted).  Each `.exit`
iteration spawned exactly one child; `.startFailed` spawned none. -/
def runScript (policy : Policy) : List Iter → Nat × Bool
  | [] => (0, false)
  | .startFailed :: rest => runScript policy rest
  | .exit c e cls :: rest =>
      match exitDecision policy c e cls with
      | .stopRun _ => (1, true)
      | .restart _ =>
          let nr := runScript policy rest
          (nr.1 + 1, nr.2)

/-! ## Start and Stop of the supervisor Runner -/

/-- The `Runner` fields involved in `Start` and `Stop`
(internal/supervisor/supervisor.go, current revision): the state
machine's state, the owned child and its per-spawn completion event
(`waitDone`), both identified by the spawn epoch (modelling `*exec.Cmd` /
channel pointer identity), and the start counters. -/
structure Runner where
  smState : SMState
  cmd : Option Nat
  waitDone : Option Nat
  startSuccessCount : Nat
  startFailureCount : Nat
deriving DecidableEq, Repr

/-- Environment of one `Start` call: whether `build()`, the two pipe
set-ups and `cmd.Start()` succeed; the state-machine state concurrently
observed at the Connecting→Connected transition (a state other than
Connecting models the transition being rejected); and whether the child
is reaped within the 3 s wait, resp. the further 1 s wait after the
force-kill. -/
structure StartEnv where
  buildOk : Bool
  stdoutPipeOk : Bool
  stderrPipeOk : Bool
  procStartOk : Bool
  smAtConnected : SMState
  reapWithin3s : Bool
  reapWithin1s : Bool
deriving DecidableEq, Repr

/-- The bounded reap shared by `Start`'s rejection path and `Stop`:
wait on the completion event `w` for 3 s; on timeout force-kill child `e`
and wait on `w` for 1 s more. -/
def reapEvents (e w : Nat) (reap3 reap1 : Bool) : List Ev :=
  if reap3 then [Ev.waitOn w 3000 true]
  else
    Ev.waitOn w 3000 false :: Ev.kill e ::
      (if reap1 then [Ev.waitOn w 1000 true] else [Ev.waitOn w 1000 false])

/-- The early-failure path of `Start`: transition back to Stopped (the
error is discarded, as in the source) and count a start failure. -/
def Runner.startFail (r : Runner) (s1 : SMState) : Runner :=
  { r with smState := (smTransition s1 SMState.stopped).getD s1,
           startFailureCount := r.startFailureCount + 1 }

/-- `Runner.Start` (internal/supervisor/supervisor.go, current revision):
transition to Connecting; `build()`; wire stdout/stderr pipes; start the
process (each failure transitions back to Stopped and counts a start
failure); publish `cmd` and the fresh completion event `waitDone` (epoch
`newEpoch`); transition to Connected — on rejection, SIGTERM the
just-spawned child (`terminateProcess`), wait on its completion event for
3 s, force-kill and wait 1 s more on timeout, clear `cmd`/`waitDone` and
return the error.  Returns (new runner, whether Start returned nil,
side-effect trace). -/
def Runner.start (r : Runner) (env : StartEnv) (newEpoch : Nat) :
    Runner × Bool × List Ev :=
  match smTransition r.smState SMState.connecting with
  | none => (r, false, [])
  | some s1 =>
      if ¬ env.buildOk then (r.startFail s1, false, [])
      else if ¬ env.stdoutPipeOk then (r.startFail s1, false, [])
      else if ¬ env.stderrPipeOk then (r.startFail s1, false, [])
      else if ¬ env.procStartOk then (r.startFail s1, false, [])
      else
        let r1 := { r with smState := s1, cmd := some newEpoch, waitDone := some newEpoch }
        match smTransition env.smAtConnected SMState.connected with
        | some s2 =>
            ({ r1 with smState := s2, startSuccessCount := r1.startSuccessCount + 1 },
             true, [])
        | none =>
            ({ r1 with smState := env.smAtConnected, cmd := none, waitDone := none },
             false,
             Ev.sigterm newEpoch ::
               reapEvents newEpoch newEpoch env.reapWithin3s env.reapWithin1s)

/-- The completion event the main `RunWithLogger` loop blocks on (the
`waitDone` read at the top of the loop body before `<-waitDone`). -/
def Runner.loopWaitEvent (r : Runner) : Option Nat := r.waitDone

/-- `Runner.Stop` (internal/supervisor/supervisor.go, current revision):
if a child exists, send `os.Interrupt`; if a completion event exists,
wait on it for 3 s, force-kill and wait on it 1 s more on timeout; then
transition the state machine to Stopped (an invalid transition is
returned as an error and leaves the state unchanged).  `cmd` and
`waitDone` are not cleared here — the main loop clears them.  Returns
(new runner, whether Stop returned nil, side-effect trace). -/
def Runner.stop (r : Runner) (reap3 reap1 : Bool) :
    Runner × Bool × List Ev :=
  let evs :=
    match r.cmd with
    | none => []
    | some e =>
        Ev.interrupt e ::
          (match r.waitDone with
           | none => []
           | some w => reapEvents e w reap3 reap1)
  match smTransition r.smState SMState.stopped with
  | none => (r, false, evs)
  | some s => ({ r with smState := s }, true, evs)

/-! ## Success-grace mark -/

/-- The runner fields involved in the success-grace mark
(`scheduleSuccessMark`): the spawn-epoch counter (modelling `*exec.Cmd`
pointer identity), the current child, whether the state machine is in
Connected, the instant the current child entered Connected (a ghost
history variable maintained by the steps), the `lastSuccess` field, and
the armed grace tasks as (epoch, fire instant) pairs. -/
structure GraceState where
  epoch : Nat
  child : Option Nat
  connected : Bool
  connectedSince : Option Int
  lastSuccess : Option Int
  pending : List (Nat × Int)
deriving DecidableEq, Repr

/-- Actions affecting the grace mark: a successful spawn at instant `t`
(`Start` publishes a fresh cmd, transitions to Connected and
`scheduleSuccessMark` arms a task that wakes at `t + 2000`, the 2 s
`successGracePeriod`); the child's exit as observed by the loop
(transition to Stopped, cmd nilled); an internal `Stop` (same effect on
these fields); and the wake-up of the grace task for epoch `e` at its
scheduled instant, which sets `lastSuccess` to the current instant only
if `r.cmd` is still the same cmd and the state is still Connected. -/
inductive GAct where
  | spawnOk (t : Int)
  | childExit (t : Int)
  | stopChild (t : Int)
  | graceFire (e : Nat) (t : Int)
deriving DecidableEq, Repr

/-- The freshly created supervisor: Stopped, no child, nothing marked. -/
def graceInit : GraceState := ⟨0, none, false, none, none, []⟩

/-- One step of the grace-mark transition system (see `GAct`). -/
def gstep (s : GraceState) : GAct → GraceState
  | .spawnOk t =>
      { epoch := s.epoch + 1, child := some (s.epoch + 1),
        connected := true, connectedSince := some t,
        lastSuccess := s.lastSuccess,
        pending := (s.epoch + 1, t + 2000) :: s.pending }
  | .childExit _ =>
      { s with child := none, connected := false, connectedSince := none }
  | .stopChild _ =>
      { s with child := none, connected := false, connectedSince := none }
  | .graceFire e t =>
      if s.child = some e ∧ s.connected = true then
        { s with pending := s.pending.erase (e, t), lastSuccess := some t }
      else
        { s with pending := s.pending.erase (e, t) }

/-- Run a trace of grace actions from the initial state. -/
def runG (acts : List GAct) : GraceState := acts.foldl gstep graceInit

/-- Precondition of one grace action in a state: a spawn requires no live
child (the loop owns at most one); an exit requires a child to exit; a
grace task can fire only if it was armed. -/
def gpre (s : GraceState) : GAct → Bool
  | .spawnOk _ => decide (s.child = none)
  | .childExit _ => decide (s.child ≠ none)
  | .stopChild _ => true
  | .graceFire e t => decide ((e, t) ∈ s.pending)

/-- Trace validity: every action satisfies its precondition in the state
it fires from (each grace task wakes exactly once, at its scheduled
instant). -/
def gvalid : GraceState → List GAct → Bool
  | _, [] => true
  | s, a :: rest => gpre s a && gvalid (gstep s a) rest

/-- Inductive invariant of the grace system: armed tasks carry epochs no
newer than the counter, and an armed task whose epoch is still the
current child has that child Connected continuously since 2 s before its
fire instant. -/
def ginv (s : GraceState) : Prop :=
  (∀ p ∈ s.pending, p.1 ≤ s.epoch) ∧
  (∀ p ∈ s.pending, s.child = some p.1 →
     s.connected = true ∧ s.connectedSince = some (p.2 - 2000))

end Rpa

namespace Rpa

/-! ## Theorems -/

/-- Members of `insertStr s l` are `s` or members of `l`. -/
theorem mem_insertStr (x s : String) (l : List String) :
    x ∈ insertStr s l → x = s ∨ x ∈ l := by
  induction l with
  | nil => intro h; simpa [insertStr] using h
  | cons t rest ih =>
      intro h
      unfold insertStr at h
      by_cases hle : s ≤ t
      · rw [if_pos hle, List.mem_cons] at h
        rcases h with h | h
        · exact Or.inl h
        · exact Or.inr h
      · rw [if_neg hle, List.mem_cons] at h
        rcases h with h | h
        · subst h
          exact Or.inr (List.mem_cons_self x rest)
        · rcases ih h with h1 | h1
          · exact Or.inl h1
          · exact Or.inr (List.mem_cons_of_mem t h1)

/-- `insertStr` preserves sortedness. -/
theorem insertStr_pairwise (s : String) (l : List String)
    (h : l.Pairwise (· ≤ ·)) : (insertStr s l).Pairwise (· ≤ ·) := by
  induction l with
  | nil => simp [insertStr]
  | cons t rest ih =>
      rcases List.pairwise_cons.mp h with ⟨ht, hrest⟩
      unfold insertStr
      by_cases hle : s ≤ t
      · rw [if_pos hle]
        refine List.pairwise_cons.mpr ⟨?_, h⟩
        intro x hx
        rw [List.mem_cons] at hx
        rcases hx with rfl | hx
        · exact hle
        · exact le_trans hle (ht x hx)
      · rw [if_neg hle]
        refine List.pairwise_cons.mpr ⟨?_, ih hrest⟩
        intro x hx
        rcases mem_insertStr x s rest hx with h1 | h1
        · exact h1 ▸ le_of_not_le hle
        · exact ht x h1

/-- `sortStrings` output is always sorted. -/
theorem sortStrings_pairwise (l : List String) :
    (sortStrings l).Pairwise (· ≤ ·) := by
  induction l with
  | nil => simp [sortStrings]
  | cons s rest ih => exact insertStr_pairwise s (sortStrings rest) ih

/-- C5: With min=2000, max=30000, factor=2.0, jitter=0, successive `Next()`
calls return 2000, 4000, 8000, 16000, 30000, 30000 (clamped at max and
saturated there: one more call returns 30000 and leaves the stored delay
unchanged), and after `Reset()` the next call returns 2000 again. -/
theorem backoff_trajectory :
    ((KBackoff.make 2000 30000 2 0).nextSeq 6).1 =
      [2000, 4000, 8000, 16000, 30000, 30000] ∧
    (((KBackoff.make 2000 30000 2 0).nextSeq 6).2.nextDelayMs 0) =
      (30000, ((KBackoff.make 2000 30000 2 0).nextSeq 6).2) ∧
    ((((KBackoff.make 2000 30000 2 0).nextSeq 6).2.reset).nextDelayMs 0).1 =
      2000 := by
  norm_num [KBackoff.nextSeq, KBackoff.nextDelayMs, KBackoff.applyJitter,
    KBackoff.reset, KBackoff.make, ratToLong]

/-- C9: on an exit classified auth or hostkey the code emits
`restart_policy_stop` at INFO level (first branch, via `shouldRestart`
returning false) and the ERROR-level branch is unreachable for every
input — contradicting the spec, which requires the error-level event. -/
theorem auth_policy_stop_is_info_level :
    exitDecision .always 255 true "auth" =
      .stopRun ⟨"INFO", "restart_policy_stop",
        [("policy", "always"), ("class", "auth")]⟩ ∧
    ∀ (p : Policy) (c : Int) (e : Bool) (cls : String),
      exitDecision p c e cls ≠ .stopRun (errorPolicyStop p cls) := by
  refine ⟨by decide, ?_⟩
  intro p c e cls h
  rw [exitDecision] at h
  by_cases hcls : cls = "auth" ∨ cls = "hostkey"
  · have hsr : shouldRestart p c e cls = false := by
      unfold shouldRestart
      rw [if_pos hcls]
    rw [if_pos (by simp [hsr])] at h
    simp [errorPolicyStop] at h
  · by_cases hsr : shouldRestart p c e cls = true
    · rw [if_neg (by simp [hsr]), if_neg hcls] at h
      exact Decision.noConfusion h
    · rw [if_pos (by simpa using hsr)] at h
      simp [errorPolicyStop] at h

/-- C10: when no trigger has ever been accepted (the last-accepted-trigger
instant is Go's zero time, modelled `none`), `allowTrigger` accepts the
trigger for every debounce window. -/
theorem first_trigger_never_debounced :
    ∀ (window now : Int), (allowTrigger none now window).1 = true := by
  intro window now
  unfold allowTrigger
  by_cases h : window ≤ 0 <;> simp [h]

/-- C4: while Connected, a trigger arriving within the debounce window of
the last accepted one is dropped with a `restart_skipped`
(detail "debounced") event; otherwise the instant is recorded and the
trigger proceeds (`restart_triggered` + SIGTERM); `window ≤ 0` disables
debouncing; and with window 2000 ms, triggers at t = 0, 500, 2500 ms are
accepted, dropped, accepted. -/
theorem debounce_gate (st : TrigSt) (reason : String) (window now prev : Int)
    (hst : st.smState = SMState.connected) :
    (0 < window → st.lastTrigger = some prev → now - prev < window →
      (triggerRestart st reason window now true).1.lastTrigger =
        st.lastTrigger ∧
      (triggerRestart st reason window now true).2 =
        [Ev.log ⟨"INFO", "restart_skipped",
          [("reason", reason), ("detail", "debounced")]⟩]) ∧
    (0 < window → st.lastTrigger = some prev → window ≤ now - prev →
      (triggerRestart st reason window now true).1.lastTrigger = some now ∧
      (triggerRestart st reason window now true).2 =
        Ev.log ⟨"INFO", "restart_triggered", [("reason", reason)]⟩ ::
          terminateEvents st.cmd) ∧
    (window ≤ 0 →
      (triggerRestart st reason window now true).1.lastTrigger =
        st.lastTrigger ∧
      (triggerRestart st reason window now true).2 =
        Ev.log ⟨"INFO", "restart_triggered", [("reason", reason)]⟩ ::
          terminateEvents st.cmd) ∧
    (runTriggers ⟨SMState.connected, some 1, none, ""⟩ 2000 "wake" true
        [0, 500, 2500]).2.map acceptedTrigger = [true, false, true] := by
  refine ⟨?_, ?_, ?_, by decide⟩
  · intro hw hlt hnow
    simp [triggerRestart, hst, allowTrigger, hlt, not_le.mpr hw, hnow]
  · intro hw hlt hnow
    simp [triggerRestart, hst, allowTrigger, hlt, not_le.mpr hw,
      not_lt.mpr hnow]
  · intro hw
    simp [triggerRestart, hst, allowTrigger, hw]

/-- C7 counterexample: a periodic trigger dropped by the debounce gate
(state Connected, window 2000 ms, last accepted trigger at t = 0, tick at
t = 500) does NOT update `lastTriggerReason`: it stays "boot" instead of
becoming "periodic", although the trigger was attempted (the
`restart_skipped` event proves it reached the gate). -/
theorem periodic_dropped_reason_unchanged :
    (periodicTick ⟨SMState.connected, some 1, some 0, "boot"⟩ 2000
        500).1.lastTriggerReason = "boot" ∧
    (periodicTick ⟨SMState.connected, some 1, some 0, "boot"⟩ 2000
        500).1.lastTriggerReason ≠ "periodic" ∧
    (periodicTick ⟨SMState.connected, some 1, some 0, "boot"⟩ 2000 500).2 =
      [Ev.log ⟨"INFO", "restart_skipped",
        [("reason", "periodic"), ("detail", "debounced")]⟩] := by
  refine ⟨by decide, by decide, by decide⟩

/-- C7 amended: triggers routed through `triggerRestart` (operator
`RequestRestart` and the sleep/network monitors) update
`lastTriggerReason` while Connected even when subsequently dropped by the
debounce gate; the periodic restart loop updates it only when its trigger
is accepted. -/
theorem trigger_reason_update (st : TrigSt) (reason : String)
    (window now : Int) (hl : Bool) (hst : st.smState = SMState.connected) :
    (triggerRestart st reason window now hl).1.lastTriggerReason = reason ∧
    (periodicTick st window now).1.lastTriggerReason =
      (if (allowTrigger st.lastTrigger now window).1 = true then "periodic"
       else st.lastTriggerReason) := by
  constructor
  · unfold triggerRestart
    rw [if_neg (by simp [hst])]
    by_cases h : (allowTrigger st.lastTrigger now window).1 = true <;>
      simp [h]
  · unfold periodicTick
    rw [if_neg (by simp [hst])]
    by_cases h : (allowTrigger st.lastTrigger now window).1 = true <;>
      simp [h]

/-- Witness for `trigger_reason_update` at a concrete Connected state. -/
theorem trigger_reason_update_witness :
    (triggerRestart ⟨SMState.connected, some 1, none, "x"⟩ "net" 0 5
        true).1.lastTriggerReason = "net" ∧
    (periodicTick ⟨SMState.connected, some 1, none, "x"⟩ 0
        5).1.lastTriggerReason =
      (if (allowTrigger (none : Option Int) 5 0).1 = true then "periodic"
       else "x") :=
  trigger_reason_update ⟨SMState.connected, some 1, none, "x"⟩ "net" 0 5
    true rfl

/-- Witness for `debounce_gate`: the dropped-trigger branch at a concrete
state (last accepted at t = 0, trigger at t = 500, window 2000). -/
theorem debounce_gate_witness :
    (triggerRestart ⟨SMState.connected, some 1, some 0, ""⟩ "wake" 2000 500
        true).1.lastTrigger = some 0 ∧
    (triggerRestart ⟨SMState.connected, some 1, some 0, ""⟩ "wake" 2000 500
        true).2 =
      [Ev.log ⟨"INFO", "restart_skipped",
        [("reason", "wake"), ("detail", "debounced")]⟩] :=
  (debounce_gate ⟨SMState.connected, some 1, some 0, ""⟩ "wake" 2000 500 0
    rfl).1 (by norm_num) rfl (by norm_num)

/-- C8: the fingerprint is the sorted, comma-joined `"<name>|<addr>"`
entries of the up, non-loopback interfaces (address-lookup errors
skipped); a poll whose fingerprint differs from the previous one emits
exactly one `"network change"` trigger (an unchanged one emits none); and
the concrete interface set {eth0 up 10.0.0.2/24, lo up loopback, en1 down}
fingerprints to "eth0|10.0.0.2/24". -/
theorem network_fingerprint_change (prev : String) (ifaces : List Iface)
    (hch : networkFingerprint ifaces ≠ prev) :
    pollStep prev (some ifaces) =
      (networkFingerprint ifaces, ["network change"]) ∧
    (∀ (p : String) (l : List Iface), networkFingerprint l = p →
       pollStep p (some l) = (p, [])) ∧
    (∀ l : List String, (sortStrings l).Pairwise (· ≤ ·)) ∧
    networkFingerprint
      [⟨"eth0", true, false, some ["10.0.0.2/24"]⟩,
       ⟨"lo", true, true, some ["127.0.0.1/8"]⟩,
       ⟨"en1", false, false, some []⟩] = "eth0|10.0.0.2/24" := by
  refine ⟨by simp [pollStep, hch], ?_, sortStrings_pairwise, by decide⟩
  intro p l h
  simp [pollStep, h]

/-- Witness for `network_fingerprint_change` at a concrete interface
list whose fingerprint differs from the previous (empty) one. -/
theorem network_fingerprint_change_witness :
    pollStep "" (some [⟨"eth0", true, false, some ["10.0.0.2/24"]⟩]) =
      (networkFingerprint [⟨"eth0", true, false, some ["10.0.0.2/24"]⟩],
       ["network change"]) :=
  (network_fingerprint_change "" [⟨"eth0", true, false,
    some ["10.0.0.2/24"]⟩] (by decide)).1

/-- For an exit classified auth or hostkey the restart decision is the
INFO-level `restart_policy_stop` return, under every policy. -/
theorem exitDecision_auth_stops (policy : Policy) (c : Int) (e : Bool)
    (cls : String) (hcls : cls = "auth" ∨ cls = "hostkey") :
    exitDecision policy c e cls =
      .stopRun ⟨"INFO", "restart_policy_stop",
        [("policy", policy.name), ("class", cls)]⟩ := by
  have hsr : shouldRestart policy c e cls = false := by
    unfold shouldRestart
    rw [if_pos hcls]
  unfold exitDecision
  rw [if_pos (by simp [hsr])]

/-- C1: if the loop reaches an iteration whose child exit is classified
auth or hostkey, `Run` returns there: the remainder of the script is
never executed (so no further child is spawned), for every restart
policy. -/
theorem auth_exit_terminal (policy : Policy) (pre rest : List Iter)
    (c : Int) (e : Bool) (cls : String)
    (hcls : cls = "auth" ∨ cls = "hostkey")
    (hpre : ∀ it ∈ pre, iterContinues policy it = true) :
    runScript policy (pre ++ Iter.exit c e cls :: rest) =
      runScript policy (pre ++ [Iter.exit c e cls]) ∧
    (runScript policy (pre ++ [Iter.exit c e cls])).2 = true := by
  induction pre with
  | nil =>
      simp only [List.nil_append]
      constructor
      · unfold runScript
        rw [exitDecision_auth_stops policy c e cls hcls]
      · unfold runScript
        rw [exitDecision_auth_stops policy c e cls hcls]
  | cons it pre ih =>
      have hit : iterContinues policy it = true :=
        hpre it (List.mem_cons_self it pre)
      have hpre1 : ∀ x ∈ pre, iterContinues policy x = true := by
        intro x hx
        exact hpre x (List.mem_cons_of_mem it hx)
      rcases ih hpre1 with ⟨ih1, ih2⟩
      cases it with
      | startFailed =>
          constructor
          · simpa only [List.cons_append, runScript] using ih1
          · simpa only [List.cons_append, runScript] using ih2
      | exit c1 e1 cls1 =>
          cases hd : exitDecision policy c1 e1 cls1 with
          | stopRun ev =>
              rw [iterContinues, hd] at hit
              exact absurd hit (by simp)
          | restart b =>
              constructor
              · simp only [List.cons_append, runScript, hd, List.append_eq]
                rw [ih1]
              · simp only [List.cons_append, runScript, hd, List.append_eq]
                exact ih2

/-- Witness for `auth_exit_terminal`: a start failure followed by an
auth-classified exit (code 255) terminates the run and ignores a trailing
clean exit, under both policies. -/
theorem auth_exit_terminal_witness :
    (runScript .always
        ([Iter.startFailed] ++ Iter.exit 255 true "auth" ::
          [Iter.exit 0 false "clean"]) =
      runScript .always ([Iter.startFailed] ++ [Iter.exit 255 true "auth"]) ∧
     (runScript .always
        ([Iter.startFailed] ++ [Iter.exit 255 true "auth"])).2 = true) ∧
    (runScript .onFailure
        ([Iter.startFailed] ++ Iter.exit 255 true "auth" ::
          [Iter.exit 0 false "clean"]) =
      runScript .onFailure
        ([Iter.startFailed] ++ [Iter.exit 255 true "auth"]) ∧
     (runScript .onFailure
        ([Iter.startFailed] ++ [Iter.exit 255 true "auth"])).2 = true) :=
  ⟨auth_exit_terminal .always [Iter.startFailed] [Iter.exit 0 false "clean"]
      255 true "auth" (Or.inl rfl) (by decide),
   auth_exit_terminal .onFailure [Iter.startFailed]
      [Iter.exit 0 false "clean"] 255 true "auth" (Or.inl rfl) (by decide)⟩

/-- C2: when the Connecting→Connected transition is rejected after the
child process has been spawned, `Start` returns the error, SIGTERMs the
just-spawned child, waits on its completion event for 3 s (force-killing
and waiting 1 s more on timeout), and clears the child handle — the child
is never leaked. -/
theorem start_reject_reaps (r : Runner) (env : StartEnv) (newEpoch : Nat)
    (h0 : r.smState = SMState.stopped)
    (hb : env.buildOk = true) (h1 : env.stdoutPipeOk = true)
    (h2 : env.stderrPipeOk = true) (h3 : env.procStartOk = true)
    (hrej : smTransition env.smAtConnected SMState.connected = none) :
    (r.start env newEpoch).2.1 = false ∧
    (r.start env newEpoch).1.cmd = none ∧
    (r.start env newEpoch).1.waitDone = none ∧
    (r.start env newEpoch).2.2 =
      Ev.sigterm newEpoch ::
        reapEvents newEpoch newEpoch env.reapWithin3s env.reapWithin1s := by
  unfold Runner.start
  rw [h0]
  cases henv : env.smAtConnected with
  | connecting =>
      rw [henv] at hrej
      simp [smTransition] at hrej
  | stopped =>
      simp [smTransition, hb, h1, h2, h3]
  | connected =>
      simp [smTransition, hb, h1, h2, h3]

/-- Witness for `start_reject_reaps`: a concrete fresh runner whose
Connected transition is rejected (state observed Stopped), with the child
surviving the 3 s wait but dying after the force-kill. -/
theorem start_reject_reaps_witness :
    ((Runner.mk SMState.stopped none none 0 0).start
        ⟨true, true, true, true, SMState.stopped, false, true⟩ 7).2.1 =
      false ∧
    ((Runner.mk SMState.stopped none none 0 0).start
        ⟨true, true, true, true, SMState.stopped, false, true⟩ 7).1.cmd =
      none ∧
    ((Runner.mk SMState.stopped none none 0 0).start
        ⟨true, true, true, true, SMState.stopped, false, true⟩
        7).1.waitDone = none ∧
    ((Runner.mk SMState.stopped none none 0 0).start
        ⟨true, true, true, true, SMState.stopped, false, true⟩ 7).2.2 =
      Ev.sigterm 7 :: reapEvents 7 7 false true :=
  start_reject_reaps (Runner.mk SMState.stopped none none 0 0)
    ⟨true, true, true, true, SMState.stopped, false, true⟩ 7
    rfl rfl rfl rfl rfl rfl

/-- C3: `Stop` with a child present sends an interrupt, waits on the very
completion event the main loop consumes (`loopWaitEvent`) for 3 s,
force-kills and waits 1 s more on timeout, and then transitions the state
machine to Stopped. -/
theorem stop_reaps_and_stops (r : Runner) (e : Nat) (reap3 reap1 : Bool)
    (hc : r.cmd = some e) (hw : r.waitDone = some e)
    (hs : r.smState = SMState.connected) :
    (r.stop reap3 reap1).1.smState = SMState.stopped ∧
    (r.stop reap3 reap1).2.1 = true ∧
    r.loopWaitEvent = some e ∧
    (r.stop reap3 reap1).2.2 =
      Ev.interrupt e :: reapEvents e e reap3 reap1 := by
  unfold Runner.stop Runner.loopWaitEvent
  rw [hc, hw, hs]
  simp [smTransition]

/-- Witness for `stop_reaps_and_stops` at a concrete Connected runner
owning child 5, reaped within the 3 s wait. -/
theorem stop_reaps_and_stops_witness :
    ((Runner.mk SMState.connected (some 5) (some 5) 1 0).stop true
        true).1.smState = SMState.stopped ∧
    ((Runner.mk SMState.connected (some 5) (some 5) 1 0).stop true
        true).2.1 = true ∧
    (Runner.mk SMState.connected (some 5) (some 5) 1 0).loopWaitEvent =
      some 5 ∧
    ((Runner.mk SMState.connected (some 5) (some 5) 1 0).stop true
        true).2.2 = Ev.interrupt 5 :: reapEvents 5 5 true true :=
  stop_reaps_and_stops (Runner.mk SMState.connected (some 5) (some 5) 1 0)
    5 true true rfl rfl rfl

/-- The grace-task wake-up step changes only `lastSuccess` and removes
the task from `pending`; all other fields are untouched. -/
theorem gstep_graceFire_proj (s : GraceState) (e : Nat) (t : Int) :
    (gstep s (.graceFire e t)).epoch = s.epoch ∧
    (gstep s (.graceFire e t)).child = s.child ∧
    (gstep s (.graceFire e t)).connected = s.connected ∧
    (gstep s (.graceFire e t)).connectedSince = s.connectedSince ∧
    (gstep s (.graceFire e t)).pending = s.pending.erase (e, t) := by
  rw [gstep]
  split <;> exact ⟨rfl, rfl, rfl, rfl, rfl⟩

/-- `ginv` is preserved by every step of the grace system. -/
theorem ginv_step (s : GraceState) (a : GAct) (h : ginv s) :
    ginv (gstep s a) := by
  rcases h with ⟨h1, h2⟩
  cases a with
  | spawnOk t =>
      constructor
      · intro p hp
        rw [gstep, List.mem_cons] at hp
        rcases hp with rfl | hp
        · exact Nat.le_refl _
        · exact Nat.le_succ_of_le (h1 p hp)
      · intro p hp hchild
        rw [gstep, List.mem_cons] at hp
        simp only [gstep, Option.some.injEq] at hchild
        rcases hp with rfl | hp
        · refine ⟨rfl, ?_⟩
          show some t = some ((t + 2000) - 2000)
          congr 1
          omega
        · exfalso
          have hle := h1 p hp
          omega
  | childExit t =>
      constructor
      · intro p hp
        simpa [gstep] using h1 p (by simpa [gstep] using hp)
      · intro p hp hchild
        simp [gstep] at hchild
  | stopChild t =>
      constructor
      · intro p hp
        simpa [gstep] using h1 p (by simpa [gstep] using hp)
      · intro p hp hchild
        simp [gstep] at hchild
  | graceFire e t =>
      obtain ⟨hep, hch, hcon, hcs, hpend⟩ := gstep_graceFire_proj s e t
      constructor
      · intro p hp
        rw [hpend] at hp
        rw [hep]
        exact h1 p (List.mem_of_mem_erase hp)
      · intro p hp hchild
        rw [hpend] at hp
        rw [hch] at hchild
        rw [hcon, hcs]
        exact h2 p (List.mem_of_mem_erase hp) hchild

/-- Marking lemma, generalized over the start state: on a valid trace
from an invariant-satisfying state whose `lastSuccess` is not yet `t`, a
final `lastSuccess = t` can only come from a grace-task wake-up at
instant `t` whose epoch was still the current child, in Connected, and
continuously Connected since `t - 2000`. -/
theorem grace_mark_aux (acts : List GAct) :
    ∀ s0 : GraceState, ginv s0 → gvalid s0 acts = true →
    ∀ t : Int, s0.lastSuccess ≠ some t →
    (acts.foldl gstep s0).lastSuccess = some t →
    ∃ pre a post, acts = pre ++ a :: post ∧
      ∃ e, a = GAct.graceFire e t ∧
        (pre.foldl gstep s0).child = some e ∧
        (pre.foldl gstep s0).connected = true ∧
        (pre.foldl gstep s0).connectedSince = some (t - 2000) := by
  induction acts with
  | nil =>
      intro s0 _ _ t h0 hend
      exact absurd hend h0
  | cons a rest ih =>
      intro s0 hinv hv t h0 hend
      have hv2 : (gpre s0 a && gvalid (gstep s0 a) rest) = true := hv
      rw [Bool.and_eq_true] at hv2
      rcases hv2 with ⟨va, vrest⟩
      by_cases h1 : (gstep s0 a).lastSuccess = some t
      · refine ⟨[], a, rest, rfl, ?_⟩
        cases a with
        | spawnOk u => exact absurd h1 (by simpa [gstep] using h0)
        | childExit u => exact absurd h1 (by simpa [gstep] using h0)
        | stopChild u => exact absurd h1 (by simpa [gstep] using h0)
        | graceFire e u =>
            by_cases hg : s0.child = some e ∧ s0.connected = true
            · rw [gstep, if_pos hg] at h1
              simp only [Option.some.injEq] at h1
              subst h1
              have hmem : (e, u) ∈ s0.pending := by
                simpa [gpre] using va
              have := hinv.2 (e, u) hmem hg.1
              exact ⟨e, rfl, hg.1, hg.2, this.2⟩
            · rw [gstep, if_neg hg] at h1
              exact absurd (show s0.lastSuccess = some t by simpa using h1) h0
      · have hend1 : (rest.foldl gstep (gstep s0 a)).lastSuccess = some t :=
          by simpa [List.foldl_cons] using hend
        rcases ih (gstep s0 a) (ginv_step s0 a hinv) vrest t h1 hend1 with
          ⟨pre, b, post, heq, e, hb, hc, hcon, hcs⟩
        refine ⟨a :: pre, b, post, by rw [heq, List.cons_append], e, hb, ?_,
          ?_, ?_⟩
        · simpa [List.foldl_cons] using hc
        · simpa [List.foldl_cons] using hcon
        · simpa [List.foldl_cons] using hcs

/-- C6: on every valid trace, `lastSuccess = t` can only arise from a
grace-task wake-up at instant `t` whose epoch is still the current child
(so a replaced child's stale task never marks the new spawn), with the
state machine still Connected and the child Connected continuously since
`t - 2000` — i.e. only after the full 2 s success-grace period of
uninterrupted Connected for the current spawn.  Moreover, in the concrete
trace where the child exits at 1 s and is replaced at 1.5 s, the stale
grace task firing at 2 s leaves `lastSuccess` unset. -/
theorem lastSuccess_requires_grace (acts : List GAct) (t : Int)
    (hv : gvalid graceInit acts = true)
    (hm : (runG acts).lastSuccess = some t) :
    (∃ pre a post, acts = pre ++ a :: post ∧
      ∃ e, a = GAct.graceFire e t ∧
        (pre.foldl gstep graceInit).child = some e ∧
        (pre.foldl gstep graceInit).connected = true ∧
        (pre.foldl gstep graceInit).connectedSince = some (t - 2000)) ∧
    (runG [GAct.spawnOk 0, GAct.childExit 1000, GAct.spawnOk 1500,
      GAct.graceFire 1 2000]).lastSuccess = none := by
  refine ⟨grace_mark_aux acts graceInit ⟨?_, ?_⟩ hv t ?_ hm, by decide⟩
  · intro p hp
    simp [graceInit] at hp
  · intro p hp
    simp [graceInit] at hp
  · simp [graceInit]

/-- Witness for `lastSuccess_requires_grace`: a spawn at t = 0 whose
grace task fires at t = 2000 marks `lastSuccess = 2000`, and the theorem
recovers the continuous-Connected evidence. -/
theorem lastSuccess_requires_grace_witness :
    gvalid graceInit [GAct.spawnOk 0, GAct.graceFire 1 2000] = true ∧
    (runG [GAct.spawnOk 0, GAct.graceFire 1 2000]).lastSuccess =
      some 2000 ∧
    ((∃ pre a post,
        [GAct.spawnOk 0, GAct.graceFire 1 2000] = pre ++ a :: post ∧
        ∃ e, a = GAct.graceFire e 2000 ∧
          (pre.foldl gstep graceInit).child = some e ∧
          (pre.foldl gstep graceInit).connected = true ∧
          (pre.foldl gstep graceInit).connectedSince =
            some (2000 - 2000)) ∧
     (runG [GAct.spawnOk 0, GAct.childExit 1000, GAct.spawnOk 1500,
       GAct.graceFire 1 2000]).lastSuccess = none) :=
  ⟨by decide, by decide,
   lastSuccess_requires_grace [GAct.spawnOk 0, GAct.graceFire 1 2000] 2000
     (by decide) (by decide)⟩

